import Mathlib

/-!
Shallow embedding of the "drinking buddy bot" engine, checked against its
natural-language design document. Each Python function that a claim touches
is translated into an executable Lean definition of the same name (module
prefixes distinguish the near-identical drafts that live in `app.py` and in
the split-out modules `message_handlers.py`, `katya_utils.py`,
`database.py`, `schedulers.py`, `llm_utils.py`). The language model, the
chat API and the relational store are oracles / explicit state: a handler
becomes a pure function from (inbound text, oracle answers, store state) to
(outbound events, log appends, new store state).

Time is modelled in seconds as `Int`; `timedelta.days >= 1` on a
timezone-aware difference is exactly `now - t ≥ 86400`.
-/

namespace DBot

/-! ## Characters and substrings (Python `str` primitives) -/

/-- Python `c.isdigit()` for ASCII digits / the `\d` class on our texts. -/
def isDigitC (c : Char) : Bool := '0' ≤ c && c ≤ '9'

/-- The regex class `[а-я]` (lowercase Cyrillic а..я, `ё` excluded, as in Python). -/
def isCyrC (c : Char) : Bool := 'а' ≤ c && c ≤ 'я'

/-- The regex class `\s` (ASCII whitespace, the only whitespace our texts use). -/
def isSpaceC (c : Char) : Bool :=
  c = ' ' || c = '\t' || c = '\n' || c = '\r' || c = '\x0b' || c = '\x0c'

/-- Python `\w`: letters (Latin or Cyrillic), digits, underscore. -/
def isWordC (c : Char) : Bool :=
  isDigitC c || ('a' ≤ c && c ≤ 'z') || ('A' ≤ c && c ≤ 'Z') || c = '_' ||
  isCyrC c || ('А' ≤ c && c ≤ 'Я') || c = 'ё' || c = 'Ё'

/-- Python `str.lower` restricted to the alphabets the bot handles
(ASCII and Cyrillic). -/
def lowerChar (c : Char) : Char :=
  if 'A' ≤ c && c ≤ 'Z' then Char.ofNat (c.toNat + 32)
  else if 'А' ≤ c && c ≤ 'Я' then Char.ofNat (c.toNat + 32)
  else if c = 'Ё' then 'ё'
  else c

/-- `text.lower()` as a character list. -/
def lowerL (s : String) : List Char := s.data.map lowerChar

/-- Python `needle in hay` (substring test). -/
def containsSub (needle : List Char) : List Char → Bool
  | [] => needle.isEmpty
  | c :: rest => needle.isPrefixOf (c :: rest) || containsSub needle rest

/-- Python `any(word in text for word in words)`. -/
def containsAny (words : List String) (hay : List Char) : Bool :=
  words.any (fun w => containsSub w.data hay)

/-- `needle` occurs contiguously inside `hay`. -/
def SubSeg (needle hay : List Char) : Prop := ∃ a b, hay = a ++ needle ++ b

/-- Python `int(s)` on a digit string. -/
def digitsToNat (s : List Char) : Nat :=
  s.foldl (fun a c => a * 10 + (c.toNat - 48)) 0

/-! ## katya_utils.py — the free-drink quota ledger

One row of the `katya_free_drinks` table (`drinks_count`, `date_reset`);
`Option KatyaFreeDrinks` is the row for one `chat_id` (none = no row yet).
-/

/-- `QUOTA_MAX`: at most 5 free drinks per rolling day
(`drinks_count < 5` in `can_katya_drink_free`). -/
def QUOTA_MAX : Nat := 5

structure KatyaFreeDrinks where
  drinksCount : Nat
  dateReset : Option Int
  deriving DecidableEq, Repr

/-- `(now - date_reset).days >= 1` for timezone-aware timestamps:
at least 24 hours have passed. -/
def resetDue (now : Int) (dateReset : Int) : Bool := 86400 ≤ now - dateReset

/-- `can_katya_drink_free(chat_id)`: returns the boolean and the updated row
(the check lazily resets the counter and creates a missing row with 0). -/
def can_katya_drink_free (now : Int) : Option KatyaFreeDrinks →
    Bool × Option KatyaFreeDrinks
  | none => (true, some ⟨0, some now⟩)
  | some row =>
    match row.dateReset with
    | some r =>
      if resetDue now r then (true, some ⟨0, some now⟩)
      else (decide (row.drinksCount < 5), some row)
    | none => (decide (row.drinksCount < 5), some row)

/-- `increment_katya_drinks(chat_id)`: lazy reset first (reset sets the
counter straight to 1), else plain increment; creates a missing row with 1. -/
def increment_katya_drinks (now : Int) : Option KatyaFreeDrinks →
    Option KatyaFreeDrinks
  | none => some ⟨1, some now⟩
  | some row =>
    match row.dateReset with
    | some r =>
      if resetDue now r then some ⟨1, some now⟩
      else some ⟨row.drinksCount + 1, row.dateReset⟩
    | none => some ⟨row.drinksCount + 1, row.dateReset⟩

/-- `update_katya_free_drinks(chat_id, increment)`: a bare SQL `UPDATE`
adding `increment`; touches nothing when no row exists. -/
def update_katya_free_drinks (increment : Nat) :
    Option KatyaFreeDrinks → Option KatyaFreeDrinks
  | none => none
  | some row => some ⟨row.drinksCount + increment, row.dateReset⟩

/-- The row as it stands after applying the lazy 24h reset rule (the value
`can_katya_drink_free` compares with the quota). -/
def lazyReset (now : Int) : Option KatyaFreeDrinks → Option KatyaFreeDrinks
  | none => none
  | some row =>
    match row.dateReset with
    | some r => if resetDue now r then some ⟨0, some now⟩ else some row
    | none => some row

/-- `dailyFreeQuotaUsed` after the lazy reset; a missing row counts as 0
(the check creates it with 0). -/
def quotaUsedAfterReset (now : Int) (s : Option KatyaFreeDrinks) : Nat :=
  match lazyReset now s with
  | none => 0
  | some row => row.drinksCount

/-- Quota safety invariant: an existing row never records more than
`QUOTA_MAX` used free drinks. -/
def QuotaInv (s : Option KatyaFreeDrinks) : Prop :=
  ∀ row, s = some row → row.drinksCount ≤ QUOTA_MAX

/-! Sequences of quota operations in which every consumption is guarded by a
passing `can_katya_drink_free` check (the only way the engine ever calls
`increment_katya_drinks`). `runGuarded` refuses (returns `none` for) a
sequence with an unguarded or failing-check consumption. -/

inductive QOp where
  | check (t : Int)
  | record (t : Int)
  deriving DecidableEq, Repr

def runGuarded : List QOp → Option KatyaFreeDrinks →
    Option (Option KatyaFreeDrinks)
  | [], s => some s
  | [QOp.check t], s => some (can_katya_drink_free t s).2
  | QOp.check t :: QOp.check t2 :: rest, s =>
      runGuarded (QOp.check t2 :: rest) (can_katya_drink_free t s).2
  | QOp.check t :: QOp.record t2 :: rest, s =>
      let r := can_katya_drink_free t s
      if r.1 then runGuarded rest (increment_katya_drinks t2 r.2) else none
  | QOp.record _ :: _, _ => none

inductive RTok where
  | lit (s : List Char)
  | alts (ss : List (List Char))
  | star (p : Char → Bool)
  | plus (p : Char → Bool)
  | optC (p : Char → Bool)
  | grp (ps : List (Char → Bool))

/-- `[n, n-1, …, 1]`: candidate lengths for a greedy `+` over a run of `n`. -/
def countdown : Nat → List Nat
  | 0 => []
  | n + 1 => (n + 1) :: countdown n

/-- Length of the maximal prefix of `input` satisfying `p`. -/
def takeRun (p : Char → Bool) : List Char → Nat
  | [] => 0
  | c :: rest => if p c then takeRun p rest + 1 else 0

/-- Candidate (capture, rest) pairs for one token, in preference order. -/
def matchTok : RTok → List Char → List (Option (List Char) × List Char)
  | .lit s, input =>
      if s.isPrefixOf input then [(none, input.drop s.length)] else []
  | .alts ss, input =>
      ss.filterMap fun s =>
        if s.isPrefixOf input then some (none, input.drop s.length) else none
  | .star p, input =>
      ((countdown (takeRun p input)).map fun k => (none, input.drop k)) ++
        [(none, input)]
  | .plus p, input =>
      (countdown (takeRun p input)).map fun k => (none, input.drop k)
  | .optC p, input =>
      match input with
      | c :: _ => if p c then [(none, input.drop 1), (none, input)]
                  else [(none, input)]
      | [] => [(none, input)]
  | .grp ps, input =>
      ps.flatMap fun p =>
        (countdown (takeRun p input)).map fun k =>
          (some (input.take k), input.drop k)

/-- Candidate matches of a token sequence at the start of `input`. -/
def matchSeq : List RTok → List Char → List (Option (List Char) × List Char)
  | [], input => [(none, input)]
  | t :: ts, input =>
      (matchTok t input).flatMap fun pr =>
        (matchSeq ts pr.2).map fun pr2 => (pr.1 <|> pr2.1, pr2.2)

/-- `re.search`: `none` when the pattern matches nowhere, otherwise
`some group(1)` of the leftmost preferred match. -/
def searchCap (toks : List RTok) : List Char → Option (Option (List Char))
  | [] =>
      match matchSeq toks [] with
      | pr :: _ => some pr.1
      | [] => none
  | c :: rest =>
      match matchSeq toks (c :: rest) with
      | pr :: _ => some pr.1
      | [] => searchCap toks rest

/-- What a capture can be: a non-empty run of one of the group's classes. -/
def CapSpec (toks : List RTok) (cap : List Char) : Prop :=
  ∃ ps, RTok.grp ps ∈ toks ∧ cap ≠ [] ∧ ∃ p ∈ ps, cap.all p = true

/-! ## Fact extraction: the pattern parsers

`app_…` definitions embed the functions in `app.py`, `mh_…` those in
`message_handlers.py` (the two drafts differ).
-/

/-- First pattern that yields a value wins (Python's
`for pattern in patterns: … return`-with-`continue` loops). -/
def firstSome {α β : Type} (f : α → Option β) : List α → Option β
  | [] => none
  | x :: rest =>
      match f x with
      | some y => some y
      | none => firstSome f rest

def altsOf (ss : List String) : RTok := RTok.alts (ss.map (fun s => s.data))

/-- `app.py` `parse_age_from_text` patterns:
`мне\s+(\d+)\s+лет`, `мне\s+(\d+)`, `(\d+)\s+лет`. -/
def appAgePatterns : List (List RTok) :=
  [[.lit ("мне".data), .plus isSpaceC, .grp [isDigitC], .plus isSpaceC,
    .lit ("лет".data)],
   [.lit ("мне".data), .plus isSpaceC, .grp [isDigitC]],
   [.grp [isDigitC], .plus isSpaceC, .lit ("лет".data)]]

/-- One iteration of the `app.py` age loop: on a match take `int(group(1))`,
keep it only if `1 <= age <= 120`, otherwise fall through. -/
def tryAgePattern (tl : List Char) (p : List RTok) : Option Nat :=
  match searchCap p tl with
  | some (some cap) =>
      let a := digitsToNat cap
      if 1 ≤ a ∧ a ≤ 120 then some a else none
  | _ => none

/-- `app.py` `parse_age_from_text`. -/
def app_parse_age_from_text (t : String) : Option Nat :=
  firstSome (tryAgePattern (lowerL t)) appAgePatterns

/-- `\b` context check on the following characters. -/
def bdryAfter : List Char → Bool
  | [] => true
  | c :: _ => !(isWordC c)

/-- `(1[0-9]|[2-9][0-9]|100)\b` tried at the current position, alternatives
in the pattern's order. -/
def ageTokenAt (s : List Char) : Option (List Char) :=
  match s with
  | d1 :: d2 :: rest =>
      if d1 = '1' && isDigitC d2 && bdryAfter rest then some [d1, d2]
      else if ('2' ≤ d1 && d1 ≤ '9') && isDigitC d2 && bdryAfter rest then
        some [d1, d2]
      else
        match rest with
        | d3 :: rest2 =>
            if d1 = '1' && d2 = '0' && d3 = '0' && bdryAfter rest2 then
              some [d1, d2, d3]
            else none
        | [] => none
  | _ => none

/-- Leftmost match of `\b(1[0-9]|[2-9][0-9]|100)\b` (the first element of
`re.findall`), carrying the previous character for the left boundary. -/
def findAgeToken : Option Char → List Char → Option (List Char)
  | _, [] => none
  | prev, c :: rest =>
      let bOk := match prev with
        | none => true
        | some pc => !(isWordC pc)
      match (if bOk then ageTokenAt (c :: rest) else none) with
      | some tok => some tok
      | none => findAgeToken (some c) rest

/-- `message_handlers.py` `parse_age_from_text`: first `\b`-delimited
number `10..100` in the raw text, guarded by `10 <= age <= 100`. -/
def mh_parse_age_from_text (t : String) : Option Nat :=
  match findAgeToken none t.data with
  | some tok =>
      let a := digitsToNat tok
      if 10 ≤ a ∧ a ≤ 100 then some a else none
  | none => none

/-- `message_handlers.py` drink-keyword list. -/
def drink_keywords : List String :=
  ["пиво", "водка", "вино", "виски", "коньяк", "шампанское", "ром", "джин",
   "текила"]

/-- `message_handlers.py` `parse_drink_preferences`. -/
def mh_parse_drink_preferences (t : String) : Option String :=
  let tl := lowerL t
  let found := drink_keywords.filter (fun d => containsSub d.data tl)
  if found.isEmpty then none else some (String.intercalate (", ") found)

structure DrinkInfo where
  drinkType : String
  amount : Nat
  unit : String
  deriving DecidableEq, Repr

/-- The 17-way unit alternation of `message_handlers.py` `parse_drink_info`,
in pattern order. -/
def mhUnitAlts : List String :=
  ["г", "грамм", "мл", "литр", "л", "стакан", "стакана", "стаканов",
   "банка", "банки", "банок", "бутылка", "бутылки", "бутылок",
   "рюмка", "рюмки", "рюмок"]

def mhDrinkPatterns : List (List RTok) :=
  [[.lit ("выпил".data), .plus isSpaceC, .grp [isDigitC], .star isSpaceC,
    altsOf mhUnitAlts],
   [.lit ("выпила".data), .plus isSpaceC, .grp [isDigitC], .star isSpaceC,
    altsOf mhUnitAlts],
   [.grp [isDigitC], .star isSpaceC, altsOf mhUnitAlts]]

/-- Drink-kind chain of `message_handlers.py` `parse_drink_info`. -/
def mhDrinkType (tl : List Char) : String :=
  if containsAny ["пиво", "beer"] tl then "пиво"
  else if containsAny ["водка", "vodka"] tl then "водка"
  else if containsAny ["вино", "wine"] tl then "вино"
  else if containsAny ["виски", "whisky"] tl then "виски"
  else "алкоголь"

/-- Unit chain of `message_handlers.py` `parse_drink_info`. -/
def mhDrinkUnit (tl : List Char) : String :=
  if containsAny ["г", "грамм"] tl then "г"
  else if containsAny ["мл"] tl then "мл"
  else if containsAny ["литр", "л"] tl then "л"
  else if containsAny ["стакан", "стакана", "стаканов"] tl then "стаканов"
  else if containsAny ["банка", "банки", "банок"] tl then "банок"
  else if containsAny ["бутылка", "бутылки", "бутылок"] tl then "бутылок"
  else if containsAny ["рюмка", "рюмки", "рюмок"] tl then "рюмок"
  else "порций"

/-- `message_handlers.py` `parse_drink_info` (no amount bound there). -/
def mh_parse_drink_info (t : String) : Option DrinkInfo :=
  let tl := lowerL t
  match firstSome (fun p =>
      match searchCap p tl with
      | some (some cap) => some cap
      | _ => none) mhDrinkPatterns with
  | some cap => some ⟨mhDrinkType tl, digitsToNat cap, mhDrinkUnit tl⟩
  | none => none

/-- `app.py` `word_to_number` table. -/
def word_to_number : List (String × Nat) :=
  [("один", 1), ("одна", 1), ("одно", 1), ("два", 2), ("две", 2),
   ("три", 3), ("четыре", 4), ("пять", 5), ("шесть", 6), ("семь", 7),
   ("восемь", 8), ("девять", 9), ("десять", 10)]

def lookupWordNumber (cap : List Char) : Option Nat :=
  (word_to_number.find? (fun pr => pr.1.data == cap)).map (fun pr => pr.2)

structure AppDrinkPat where
  toks : List RTok
  dtype : String
  dunit : String

/-- The three pattern shapes `app.py` `parse_drink_info` uses per drink:
`выпил\s+(\d+|[а-я]+)\s*UNITS\s*KINDS`, the same without `выпил`, and
`выпил\s+UNITS\s*KINDS` with no capture. -/
def appPatsFor (units kinds : List String) (ty un : String) :
    List AppDrinkPat :=
  [⟨[.lit ("выпил".data), .plus isSpaceC, .grp [isDigitC, isCyrC],
     .star isSpaceC, altsOf units, .star isSpaceC, altsOf kinds], ty, un⟩,
   ⟨[.grp [isDigitC, isCyrC], .star isSpaceC, altsOf units, .star isSpaceC,
     altsOf kinds], ty, un⟩,
   ⟨[.lit ("выпил".data), .plus isSpaceC, altsOf units, .star isSpaceC,
     altsOf kinds], ty, un⟩]

def appBeerPats : List AppDrinkPat :=
  appPatsFor ["стакан", "бокал", "банк", "бутылк", "л", "мл"]
    ["пива", "пивка", "барнаульского"] ("пиво") ("стакан")

def appWinePats : List AppDrinkPat :=
  appPatsFor ["бокал", "стакан", "л", "мл"] ["вина", "винца"]
    ("вино") ("бокал")

def appVodkaPats : List AppDrinkPat :=
  appPatsFor ["рюмк", "стакан", "л", "мл"] ["водки", "водочки"]
    ("водка") ("рюмка")

def appWhiskyPats : List AppDrinkPat :=
  appPatsFor ["рюмк", "стакан", "л", "мл"] ["виски", "вискаря"]
    ("виски") ("рюмка")

def appDrinkPats : List AppDrinkPat :=
  appBeerPats ++ appWinePats ++ appVodkaPats ++ appWhiskyPats

/-- `amount_str.isdigit()` then `int(amount_str)`, else the
`word_to_number` table: the amount a captured group stands for, `none`
when the loop says `continue`. -/
def pyAmount (cap : List Char) : Option Nat :=
  if cap ≠ [] ∧ cap.all isDigitC then some (digitsToNat cap)
  else lookupWordNumber cap

/-- The `app.py` `parse_drink_info` loop: digits parse as `int`, else the
numeral-word table, else the pattern is skipped; a captured-group amount
must lie in `[1, 50]` to be returned; a match without a numeral group
yields amount 1. -/
def runAppDrinkPats : List AppDrinkPat → List Char → Option DrinkInfo
  | [], _ => none
  | pe :: rest, tl =>
      match searchCap pe.toks tl with
      | none => runAppDrinkPats rest tl
      | some capOpt =>
          match capOpt with
          | some cap =>
              match pyAmount cap with
              | none => runAppDrinkPats rest tl
              | some amount =>
                  if 1 ≤ amount ∧ amount ≤ 50 then some ⟨pe.dtype, amount, pe.dunit⟩
                  else runAppDrinkPats rest tl
          | none => some ⟨pe.dtype, 1, pe.dunit⟩

/-- `app.py` `parse_drink_info`. -/
def app_parse_drink_info (t : String) : Option DrinkInfo :=
  runAppDrinkPats appDrinkPats (lowerL t)

/-- `app.py` `parse_drink_amount` patterns. -/
def appAmountPatterns : List (List RTok) :=
  [[.lit ("выпил".data), .plus isSpaceC, .grp [isDigitC], .plus isSpaceC,
    .lit ("бокал".data)],
   [.lit ("выпил".data), .plus isSpaceC, .grp [isDigitC], .plus isSpaceC,
    .lit ("стакан".data)],
   [.lit ("выпил".data), .plus isSpaceC, .grp [isDigitC], .plus isSpaceC,
    .lit ("рюмк".data)],
   [.grp [isDigitC], .plus isSpaceC, .lit ("бокал".data)],
   [.grp [isDigitC], .plus isSpaceC, .lit ("стакан".data)],
   [.grp [isDigitC], .plus isSpaceC, .lit ("рюмк".data)]]

/-- `app.py` `parse_drink_amount` (bounded to `[1, 50]`, falls through on
an out-of-range amount). -/
def app_parse_drink_amount (t : String) : Option Nat :=
  firstSome (fun p =>
    match searchCap p (lowerL t) with
    | some (some cap) =>
        let a := digitsToNat cap
        if 1 ≤ a ∧ a ≤ 50 then some a else none
    | _ => none) appAmountPatterns

/-! ## `app.py` `parse_drink_preferences` (pattern phase + keyword phase) -/

/-- The capture class `[^.!?]+`. -/
def notPunct (c : Char) : Bool := !(c = '.' || c = '!' || c = '?')

def appPrefPatterns : List (List RTok) :=
  [[.lit ("запомни".data), .plus isSpaceC, .lit ("что".data), .plus isSpaceC,
    .lit ("мое".data), .plus isSpaceC, .lit ("любимое".data), .plus isSpaceC,
    .lit ("пиво".data), .plus isSpaceC, .lit ("это".data), .plus isSpaceC,
    .grp [notPunct]],
   [.lit ("запомни".data), .plus isSpaceC, .lit ("что".data), .plus isSpaceC,
    .lit ("мой".data), .plus isSpaceC, .lit ("любимый".data), .plus isSpaceC,
    .lit ("напиток".data), .plus isSpaceC, .lit ("это".data), .plus isSpaceC,
    .grp [notPunct]],
   [.lit ("мое".data), .plus isSpaceC, .lit ("любимое".data), .plus isSpaceC,
    .lit ("пиво".data), .plus isSpaceC, .lit ("это".data), .plus isSpaceC,
    .grp [notPunct]],
   [.lit ("мой".data), .plus isSpaceC, .lit ("любимый".data), .plus isSpaceC,
    .lit ("напиток".data), .plus isSpaceC, .lit ("это".data), .plus isSpaceC,
    .grp [notPunct]],
   [.lit ("предпочитаю".data), .plus isSpaceC, .grp [notPunct]],
   [.lit ("мне".data), .plus isSpaceC, .lit ("нравится".data), .plus isSpaceC,
    .grp [notPunct]],
   [.lit ("пью".data), .plus isSpaceC, .grp [notPunct]],
   [.lit ("запомина".data), .optC (fun c => c = 'й'), .star isSpaceC,
    .optC (fun c => c = ':' || c = '-'), .star isSpaceC, .grp [notPunct]]]

/-- Python `str.strip()`. -/
def stripWs (s : List Char) : List Char :=
  ((s.dropWhile isSpaceC).reverse.dropWhile isSpaceC).reverse

/-- The words deleted by `re.sub(r'\b(это|эта|этот|мое|мой|моя|мне|мне|мне)\b', '', …)`. -/
def appPrefStopWords : List (List Char) :=
  ["это".data, "эта".data, "этот".data, "мое".data, "мой".data, "моя".data,
   "мне".data, "мне".data, "мне".data]

/-- Try the stop-word alternation at the current position (left boundary
already checked); yields the word's last character and its length. -/
def trySubWordAt : List (List Char) → List Char → Option (Char × Nat)
  | [], _ => none
  | w :: ws, s =>
      if w.isPrefixOf s && bdryAfter (s.drop w.length) then
        some (w.getLastD ' ', w.length)
      else trySubWordAt ws s

/-- `re.sub` with the `\b`-delimited stop-word pattern and empty
replacement, scanning left to right over the original characters. The
`fuel` argument only bounds the recursion; every step consumes at least
one character, so `fuel = s.length` gives the exact `re.sub` result. -/
def subStopWordsF : Nat → Option Char → List Char → List Char
  | 0, _, _ => []
  | fuel + 1, prev, s =>
      match s with
      | [] => []
      | c :: rest =>
          let bOk := match prev with
            | none => true
            | some pc => !(isWordC pc)
          match (if bOk then trySubWordAt appPrefStopWords (c :: rest)
              else none) with
          | some pr => subStopWordsF fuel (some pr.1) (rest.drop (pr.2 - 1))
          | none => c :: subStopWordsF fuel (some c) rest

def subStopWords (prev : Option Char) (s : List Char) : List Char :=
  subStopWordsF s.length prev s

/-- One iteration of the `app.py` preference-pattern loop: strip, delete
stop words, strip again, keep only a result longer than 2 characters. -/
def tryPrefPattern (tl : List Char) (p : List RTok) : Option String :=
  match searchCap p tl with
  | some (some cap) =>
      let name1 := stripWs (subStopWords none (stripWs cap))
      if name1 ≠ [] ∧ 2 < name1.length then some (String.mk name1) else none
  | _ => none

/-- The keyword table of the fallback phase, in the dict's insertion order. -/
def appPrefDrinks : List (String × List String) :=
  [("пиво", ["пиво", "пивко", "пивка", "🍺"]),
   ("вино", ["вино", "винца", "винцо", "🍷"]),
   ("водка", ["водка", "водочка", "🍸"]),
   ("виски", ["виски", "вискарь", "🥃"]),
   ("шампанское", ["шампанское", "🍾"]),
   ("коньяк", ["коньяк", "коньячок"]),
   ("ром", ["ром", "ромчик"]),
   ("джин", ["джин", "джинчик"])]

/-- `app.py` `parse_drink_preferences`. -/
def app_parse_drink_preferences (t : String) : Option String :=
  let tl := lowerL t
  match firstSome (tryPrefPattern tl) appPrefPatterns with
  | some name => some name
  | none =>
      if containsAny ["запомни", "предпочитаю", "люблю", "пью", "нравится"] tl
      then
        let found := (appPrefDrinks.filter
          (fun pr => containsAny pr.2 tl)).map (fun pr => pr.1)
        if found.isEmpty then none else some (String.intercalate (", ") found)
      else none

/-! ## The inbound-message handlers

Oracle inputs stand for what the store and the language model return
during the call; outbound traffic and log appends are collected in the
output record.
-/

structure Turn where
  role : String
  content : String
  sticker : Option String
  deriving DecidableEq, Repr

/-- The stats short-circuit keywords. -/
def statsKeywords : List String :=
  ["статистика", "сколько выпил", "сколько пил", "статистик"]

/-- `f"📊 **Твоя статистика выпитого:**\n\n{stats}"`. -/
def statsReplyText (stats : String) : String :=
  "📊 **Твоя статистика выпитого:**\n\n" ++ stats

/-- The onboarding reminder literal (identical in both drafts). -/
def reminderMsg : String :=
  "💡 Кстати, я могу вести статистику твоего выпитого! Просто напиши 'статистика' и я покажу сколько ты выпил сегодня и за неделю! 📊\n\nА чтобы я не забывала - каждый раз когда пьешь, просто напиши мне что и сколько! Например: \"выпил 2 пива\" или \"выпил 100г водки\" 🍷"

/-- Sticker-command derivation from the reply text,
`message_handlers.py` variant of the `if/elif` chain. -/
def stickerFromAnswerMH (answer : String) : Option String :=
  let al := lowerL answer
  if containsAny ["выпьем", "выпьемте", "пьем", "пьемте", "выпьем вместе",
      "давай выпьем", "пей", "выпей", "наливай"] al then
    some ("[SEND_DRINK_BEER]")
  else if containsAny ["водка", "водочка", "водочки"] al then
    some ("[SEND_DRINK_VODKA]")
  else if containsAny ["вино", "винцо", "винца"] al then
    some ("[SEND_DRINK_WINE]")
  else if containsAny ["виски", "вискарь", "вискаря"] al then
    some ("[SEND_DRINK_WHISKEY]")
  else if containsAny ["грустно", "печально", "тоскливо", "грустная"] al then
    some ("[SEND_SAD_STICKER]")
  else if containsAny ["радостно", "весело", "счастливо", "радостная"] al then
    some ("[SEND_HAPPY_STICKER]")
  else none

/-- `app.py` variant (no `пей`/`выпей`/`наливай` in the first keyword set). -/
def stickerFromAnswerApp (answer : String) : Option String :=
  let al := lowerL answer
  if containsAny ["выпьем", "выпьемте", "пьем", "пьемте", "выпьем вместе",
      "давай выпьем"] al then
    some ("[SEND_DRINK_BEER]")
  else if containsAny ["водка", "водочка", "водочки"] al then
    some ("[SEND_DRINK_VODKA]")
  else if containsAny ["вино", "винцо", "винца"] al then
    some ("[SEND_DRINK_WINE]")
  else if containsAny ["виски", "вискарь", "вискаря"] al then
    some ("[SEND_DRINK_WHISKEY]")
  else if containsAny ["грустно", "печально", "тоскливо", "грустная"] al then
    some ("[SEND_SAD_STICKER]")
  else if containsAny ["радостно", "весело", "счастливо", "радостная"] al then
    some ("[SEND_HAPPY_STICKER]")
  else none

/-- The fixed gift catalog of `katya_utils.send_gift_request`:
name, emoji, price in stars. -/
def giftCatalog : List (String × String × Nat) :=
  [("Вино", "🍷", 250), ("Водка", "🍸", 100), ("Виски", "🥃", 500),
   ("Пиво", "🍺", 50)]

/-- Store/oracle context of one inbound text message. -/
structure MsgCtx where
  textIn : String
  statsText : String
  remindDue : Bool
  llmAnswer : String
  now : Int
  quota : Option KatyaFreeDrinks

/-- Effects of `message_handlers.handle_user_message`. -/
structure MHOut where
  replies : List String
  stickers : List String
  giftOffers : List (List (String × String × Nat))
  log : List Turn
  quota : Option KatyaFreeDrinks
  ageUpdate : Option Nat
  prefUpdate : Option String
  drinkRecord : Option DrinkInfo
  quickFlagReset : Bool
  deriving DecidableEq, Repr

/-- `message_handlers.handle_user_message`, non-exceptional path. The user
turn is saved first, the quick-message flag reset, then the branch chain:
stats short-circuit, fact extraction, stats reminder, LLM reply with
sticker / gift-offer handling. -/
def handle_user_message (ctx : MsgCtx) : MHOut :=
  let tl := lowerL ctx.textIn
  let userTurn : Turn := ⟨"user", ctx.textIn, none⟩
  if containsAny statsKeywords tl then
    let reply := statsReplyText ctx.statsText
    { replies := [reply], stickers := [], giftOffers := [],
      log := [userTurn, ⟨"assistant", reply, none⟩], quota := ctx.quota,
      ageUpdate := none, prefUpdate := none, drinkRecord := none,
      quickFlagReset := true }
  else
    let age := mh_parse_age_from_text ctx.textIn
    let prefs := mh_parse_drink_preferences ctx.textIn
    let drink := mh_parse_drink_info ctx.textIn
    if ctx.remindDue then
      { replies := [reminderMsg], stickers := [], giftOffers := [],
        log := [userTurn, ⟨"assistant", reminderMsg, none⟩],
        quota := ctx.quota, ageUpdate := age, prefUpdate := prefs,
        drinkRecord := drink, quickFlagReset := true }
    else
      let answer := ctx.llmAnswer
      match stickerFromAnswerMH answer with
      | some cmd =>
          let r := can_katya_drink_free ctx.now ctx.quota
          if r.1 then
            { replies := [answer], stickers := [cmd], giftOffers := [],
              log := [userTurn, ⟨"assistant", answer, some cmd⟩],
              quota := increment_katya_drinks ctx.now r.2, ageUpdate := age,
              prefUpdate := prefs, drinkRecord := drink,
              quickFlagReset := true }
          else
            { replies := [answer], stickers := [],
              giftOffers := [giftCatalog],
              log := [userTurn, ⟨"assistant", answer, none⟩], quota := r.2,
              ageUpdate := age, prefUpdate := prefs, drinkRecord := drink,
              quickFlagReset := true }
      | none =>
          { replies := [answer], stickers := [], giftOffers := [],
            log := [userTurn, ⟨"assistant", answer, none⟩],
            quota := ctx.quota, ageUpdate := age, prefUpdate := prefs,
            drinkRecord := drink, quickFlagReset := true }

/-- Oracle context for `app.py` `msg_handler` (adds the daily-limit branch). -/
structure AppCtx where
  textIn : String
  statsText : String
  overLimit : Bool
  warnText : String
  remindDue : Bool
  llmAnswer : String
  now : Int
  quota : Option KatyaFreeDrinks

/-- Effects of `app.msg_handler`; the gift request there is a single
text-with-button message, counted in `giftRequests`. -/
structure AppOut where
  replies : List String
  stickers : List String
  giftRequests : Nat
  log : List Turn
  quota : Option KatyaFreeDrinks
  ageUpdate : Option Nat
  prefUpdate : Option String
  drinkRecord : Option DrinkInfo
  drinkCountAdd : Option Nat
  warnedToday : Bool
  deriving DecidableEq, Repr

/-- `app.msg_handler`, non-exceptional path. Note: this draft never saves a
`"user"`-role row — every `save_message` call in it logs `"assistant"`. -/
def msg_handler (ctx : AppCtx) : AppOut :=
  let tl := lowerL ctx.textIn
  if containsAny statsKeywords tl then
    let reply := statsReplyText ctx.statsText
    { replies := [reply], stickers := [], giftRequests := 0,
      log := [⟨"assistant", reply, none⟩], quota := ctx.quota,
      ageUpdate := none, prefUpdate := none, drinkRecord := none,
      drinkCountAdd := none, warnedToday := false }
  else
    let age := app_parse_age_from_text ctx.textIn
    let prefs := app_parse_drink_preferences ctx.textIn
    let dinfo := app_parse_drink_info ctx.textIn
    if dinfo.isSome && ctx.overLimit then
      { replies := [ctx.warnText], stickers := [], giftRequests := 0,
        log := [⟨"assistant", ctx.warnText, none⟩], quota := ctx.quota,
        ageUpdate := age, prefUpdate := prefs, drinkRecord := dinfo,
        drinkCountAdd := none, warnedToday := true }
    else if ctx.remindDue then
      { replies := [reminderMsg], stickers := [], giftRequests := 0,
        log := [⟨"assistant", reminderMsg, none⟩], quota := ctx.quota,
        ageUpdate := age, prefUpdate := prefs, drinkRecord := dinfo,
        drinkCountAdd := none, warnedToday := false }
    else
      let damount := app_parse_drink_amount ctx.textIn
      let answer := ctx.llmAnswer
      match stickerFromAnswerApp answer with
      | some cmd =>
          let r := can_katya_drink_free ctx.now ctx.quota
          if r.1 then
            { replies := [answer], stickers := [cmd], giftRequests := 0,
              log := [⟨"assistant", answer, some cmd⟩],
              quota := increment_katya_drinks ctx.now r.2, ageUpdate := age,
              prefUpdate := prefs, drinkRecord := dinfo,
              drinkCountAdd := damount, warnedToday := false }
          else
            { replies := [answer], stickers := [], giftRequests := 1,
              log := [⟨"assistant", answer, none⟩], quota := r.2,
              ageUpdate := age, prefUpdate := prefs, drinkRecord := dinfo,
              drinkCountAdd := damount, warnedToday := false }
      | none =>
          { replies := [answer], stickers := [], giftRequests := 0,
            log := [⟨"assistant", answer, none⟩], quota := ctx.quota,
            ageUpdate := age, prefUpdate := prefs, drinkRecord := dinfo,
            drinkCountAdd := damount, warnedToday := false }

/-! ## Confirmed-payment handlers -/

structure PayOut where
  sent : List String
  stickers : List String
  log : List Turn
  quota : Option KatyaFreeDrinks
  deriving DecidableEq, Repr

/-- `message_handlers.handle_successful_payment`: sends the gratitude
sequence (LLM oracle `gratitude`), one themed sticker picked by substring
tests on the raw payload, then `update_katya_free_drinks(chat_id, 1)`.
It never writes to the conversation log and checks no charge id. -/
def mh_handle_successful_payment (payload : String) (gratitude : List String)
    (q : Option KatyaFreeDrinks) : PayOut :=
  let pl := payload.data
  let sticker :=
    if containsSub ("gift_вино".data) pl then "[SEND_DRINK_WINE]"
    else if containsSub ("gift_водка".data) pl then "[SEND_DRINK_VODKA]"
    else if containsSub ("gift_виски".data) pl then "[SEND_DRINK_WHISKY]"
    else if containsSub ("gift_пиво".data) pl then "[SEND_DRINK_BEER]"
    else "[SEND_DRINK_BEER]"
  { sent := gratitude, stickers := [sticker], log := [],
    quota := update_katya_free_drinks 1 q }

/-- One entry of the `drink_info` table in `app.successful_payment`. -/
def appPayDrink (payload : String) : String × String × String :=
  if payload = "vodka" then ("🍸 Водка", "[SEND_DRINK_VODKA]", "🍸")
  else if payload = "whisky" then ("🥃 Виски", "[SEND_DRINK_WHISKY]", "🥃")
  else if payload = "beer" then ("🍺 Пиво", "[SEND_DRINK_BEER]", "🍺")
  else ("🍷 Вино", "[SEND_DRINK_WINE]", "🍷")

/-- `app.successful_payment`: five fixed gratitude messages built from the
payload's drink, one sticker, all five logged as assistant turns; it never
touches the quota ledger and checks no charge id. -/
def app_successful_payment (payload : String) (q : Option KatyaFreeDrinks) :
    PayOut :=
  let d := appPayDrink
    (if payload = "wine" || payload = "vodka" || payload = "whisky" ||
        payload = "beer" then payload else "wine")
  let gratitude :=
    ["🎉 Ого! Ты подарил мне " ++ d.1 ++ "!",
     "💕 Я так рада! Спасибо тебе огромное!",
     " Ты самый лучший! Сейчас выпью твой подарок!",
     d.2.2 ++ " *выпивает* Ммм, как вкусно!",
     "💖 Ты сделал мой день! Обнимаю тебя! 🤗"]
  { sent := gratitude, stickers := [d.2.1],
    log := gratitude.map (fun m => ⟨"assistant", m, none⟩), quota := q }

/-- Replaying the same confirmed-payment event against
`message_handlers.handle_successful_payment`. -/
def mhPaymentTwice (payload : String) (gratitude : List String)
    (q : Option KatyaFreeDrinks) : PayOut :=
  let o1 := mh_handle_successful_payment payload gratitude q
  let o2 := mh_handle_successful_payment payload gratitude o1.quota
  { sent := o1.sent ++ o2.sent, stickers := o1.stickers ++ o2.stickers,
    log := o1.log ++ o2.log, quota := o2.quota }

/-- Replaying the same confirmed-payment event against
`app.successful_payment`. -/
def appPaymentTwice (payload : String) (q : Option KatyaFreeDrinks) :
    PayOut :=
  let o1 := app_successful_payment payload q
  let o2 := app_successful_payment payload o1.quota
  { sent := o1.sent ++ o2.sent, stickers := o1.stickers ++ o2.stickers,
    log := o1.log ++ o2.log, quota := o2.quota }

/-! ## Re-engagement scheduler (`database.py` + `schedulers.py`) -/

/-- The per-user columns the quick timer reads and writes. -/
structure UserSched where
  lastUserMsgAt : Option Int
  quickSent : Bool
  lastQuickAt : Option Int
  lastAutoAt : Option Int
  deriving DecidableEq, Repr

/-- The `get_users_for_quick_message` selection predicate for one user:
last user-role message strictly older than 15 minutes, `quick_message_sent`
false, and no auto message within the last hour. -/
def quickEligible (now : Int) (u : UserSched) : Bool :=
  (match u.lastUserMsgAt with
   | none => false
   | some t => decide (t < now - 900)) &&
  !u.quickSent &&
  (match u.lastAutoAt with
   | none => true
   | some a => decide (a < now - 3600))

/-- `database.update_last_quick_message`: stamps the send time and sets
`quick_message_sent = TRUE`. -/
def update_last_quick_message (now : Int) (u : UserSched) : UserSched :=
  { u with lastQuickAt := some now, quickSent := true }

/-- One quick-timer tick for one user: if selected, mark first
(`update_last_quick_message`) and send exactly one message. -/
def fireQuick (now : Int) (u : UserSched) : Nat × UserSched :=
  if quickEligible now u then (1, update_last_quick_message now u) else (0, u)

/-- A sequence of quick-timer ticks with no inbound message in between;
returns the total number of quick prompts sent. -/
def runQuickFires : List Int → UserSched → Nat × UserSched
  | [], u => (0, u)
  | t :: ts, u =>
      let r := fireQuick t u
      let r2 := runQuickFires ts r.2
      (r.1 + r2.1, r2.2)

/-- What processing an inbound message does to the scheduler columns:
a fresh last-message timestamp (`save_message` with role `user`) and
`reset_quick_message_flag`. -/
def inboundMark (t : Int) (u : UserSched) : UserSched :=
  { u with lastUserMsgAt := some t, quickSent := false }

/-! ## Proactive message generation (`llm_utils.py` / `schedulers.py`) -/

/-- `llm_utils.generate_quick_message_llm`: the LLM oracle's answer, or the
static fallback `f"Привет, {first_name}! Как дела? 😉"` when the client is
missing or the call raises. -/
def generate_quick_message_llm (firstName : String) (llm : Option String) :
    String :=
  match llm with
  | some s => s
  | none => "Привет, " ++ firstName ++ "! Как дела? 😉"

/-- `llm_utils.generate_auto_message_llm` (daily timer), same shape. -/
def generate_auto_message_llm (firstName : String) (llm : Option String) :
    String :=
  match llm with
  | some s => s
  | none => "Привет, " ++ firstName ++ "! Соскучился? 😉"

/-- A user the quick timer selected, with the oracle answer its LLM call
will produce (`none` = the call fails). -/
structure QUser where
  chatId : Int
  firstName : String
  llmAnswer : Option String
  deriving DecidableEq, Repr

/-- `schedulers.send_quick_messages` restricted to the selected users:
every user is sent exactly one message, whatever the generator returned. -/
def send_quick_messages (users : List QUser) : List (Int × String) :=
  users.map (fun u => (u.chatId, generate_quick_message_llm u.firstName u.llmAnswer))

/-- `gender_llm.generate_gender_appropriate_gratitude` when the LLM client
is missing or the call raises: the five fixed fallback messages. -/
def generate_gender_appropriate_gratitude_fallback
    (name drinkName drinkEmoji : String) : List String :=
  ["Ого! " ++ name ++ ", ты подарил(а) мне " ++ drinkName ++ "!",
   "💕 Я так рада! Спасибо тебе огромное!",
   "Ты самый(ая) лучший(ая)! Сейчас выпью твой подарок!",
   drinkEmoji ++ " *выпивает* Ммм, как вкусно!",
   "💖 Ты сделал(а) мой день! Обнимаю тебя! 🤗"]

/-- Number of conversation-log rows with the given role. -/
def countRole (r : String) (l : List Turn) : Nat :=
  (l.filter (fun t => t.role == r)).length

/-- A pattern with no capturing group. -/
def GrpFree (toks : List RTok) : Prop := ∀ ps, RTok.grp ps ∉ toks

/-! ## Lemmas

General facts about the string primitives, the regex engine and the
quota operations, shared by the claim theorems below.
-/

theorem subSeg_of_suffix {n s t : List Char} (h : SubSeg n s)
    (hs : ∃ a, t = a ++ s) : SubSeg n t := by
  obtain ⟨a, b, rfl⟩ := h
  obtain ⟨p, rfl⟩ := hs
  exact ⟨p ++ a, b, by simp⟩

theorem isPrefixOf_self_append (n b : List Char) : n.isPrefixOf (n ++ b) = true := by
  induction n with
  | nil => simp [List.isPrefixOf]
  | cons c cs ih => simp [List.isPrefixOf, ih]

theorem containsSub_self_append (n b : List Char) : containsSub n (n ++ b) = true := by
  cases n with
  | nil => cases b <;> simp [containsSub, List.isEmpty, List.isPrefixOf]
  | cons c cs => simp [containsSub, isPrefixOf_self_append]

theorem containsSub_of_subSeg {n s : List Char} (h : SubSeg n s) :
    containsSub n s = true := by
  obtain ⟨a, b, rfl⟩ := h
  induction a with
  | nil => simpa using containsSub_self_append n b
  | cons c cs ih =>
    have ih2 : containsSub n (cs ++ (n ++ b)) = true := by
      simpa [List.append_assoc] using ih
    simp [containsSub, ih2]

theorem can_preserves_inv {now : Int} {s : Option KatyaFreeDrinks}
    (h : QuotaInv s) : QuotaInv (can_katya_drink_free now s).2 := by
  cases s with
  | none => intro row hr; cases hr; simp [QUOTA_MAX]
  | some row =>
    cases hrs : row.dateReset with
    | none =>
      simpa [can_katya_drink_free, hrs] using h
    | some r =>
      by_cases hd : resetDue now r = true
      · intro row2 hr2
        simp [can_katya_drink_free, hrs, hd] at hr2
        simp [← hr2, QUOTA_MAX]
      · simp only [Bool.not_eq_true] at hd
        simpa [can_katya_drink_free, hrs, hd] using h

theorem can_true_post {now : Int} {s : Option KatyaFreeDrinks}
    (h : (can_katya_drink_free now s).1 = true) :
    ∀ row, (can_katya_drink_free now s).2 = some row →
      row.drinksCount < QUOTA_MAX := by
  intro row hr
  cases s with
  | none =>
    simp [can_katya_drink_free] at hr
    simp [← hr, QUOTA_MAX]
  | some row0 =>
    cases hrs : row0.dateReset with
    | none =>
      simp [can_katya_drink_free, hrs] at h hr
      simp [← hr, QUOTA_MAX]
      omega
    | some r =>
      by_cases hd : resetDue now r = true
      · simp [can_katya_drink_free, hrs, hd] at hr
        simp [← hr, QUOTA_MAX]
      · simp only [Bool.not_eq_true] at hd
        simp [can_katya_drink_free, hrs, hd] at h hr
        simp [← hr, QUOTA_MAX]
        omega

theorem incr_of_lt {now : Int} {s : Option KatyaFreeDrinks}
    (h : ∀ row, s = some row → row.drinksCount < QUOTA_MAX) :
    QuotaInv (increment_katya_drinks now s) := by
  cases s with
  | none => intro row hr; simp [increment_katya_drinks] at hr; simp [← hr, QUOTA_MAX]
  | some row =>
    have hlt := h row rfl
    simp [QUOTA_MAX] at hlt
    cases hrs : row.dateReset with
    | none =>
      intro row2 hr2
      simp [increment_katya_drinks, hrs] at hr2
      simp [← hr2, QUOTA_MAX]
      omega
    | some r =>
      by_cases hd : resetDue now r = true
      · intro row2 hr2
        simp [increment_katya_drinks, hrs, hd] at hr2
        simp [← hr2, QUOTA_MAX]
      · simp only [Bool.not_eq_true] at hd
        intro row2 hr2
        simp [increment_katya_drinks, hrs, hd] at hr2
        simp [← hr2, QUOTA_MAX]
        omega

theorem runGuarded_inv : ∀ (ops : List QOp) (s s2 : Option KatyaFreeDrinks),
    QuotaInv s → runGuarded ops s = some s2 → QuotaInv s2
  | [], s, s2, hinv, hrun => by
      simp [runGuarded] at hrun
      rwa [← hrun]
  | [QOp.check t], s, s2, hinv, hrun => by
      simp [runGuarded] at hrun
      rw [← hrun]
      exact can_preserves_inv hinv
  | QOp.check t :: QOp.check t2 :: rest, s, s2, hinv, hrun =>
      runGuarded_inv (QOp.check t2 :: rest) _ s2 (can_preserves_inv hinv)
        (by simpa [runGuarded] using hrun)
  | QOp.check t :: QOp.record t2 :: rest, s, s2, hinv, hrun => by
      have h2 : (can_katya_drink_free t s).1 = true ∧
          runGuarded rest (increment_katya_drinks t2
            (can_katya_drink_free t s).2) = some s2 := by
        simpa [runGuarded] using hrun
      exact runGuarded_inv rest _ s2 (incr_of_lt (can_true_post h2.1)) h2.2
  | QOp.record t :: rest, s, s2, hinv, hrun => by
      simp [runGuarded] at hrun

/-! ## A tiny regex engine

The parsers use `re.search` with patterns built only from literals,
non-capturing alternations of literals, `\s*` / `\s+`, an optional
character, and one capturing group of the shape `(c₁+|c₂+|…)` over
character classes. `matchSeq` enumerates candidate matches in exactly
Python's backtracking preference order (alternatives left to right,
quantifiers greedy), and `searchCap` scans start positions left to right,
so its first answer is `re.search`'s match and its capture is `group(1)`.
-/

theorem mem_countdown {k n : Nat} (h : k ∈ countdown n) : 1 ≤ k ∧ k ≤ n := by
  induction n with
  | zero => simp [countdown] at h
  | succ m ih =>
    simp [countdown] at h
    rcases h with rfl | h
    · omega
    · have := ih h
      omega

theorem takeRun_all (p : Char → Bool) :
    ∀ (input : List Char) (k : Nat), k ≤ takeRun p input →
      (input.take k).all p = true := by
  intro input
  induction input with
  | nil => intro k hk; simp [takeRun] at hk; simp [hk]
  | cons c rest ih =>
    intro k hk
    by_cases hc : p c = true
    · simp [takeRun, hc] at hk
      cases k with
      | zero => simp
      | succ m =>
        have hm := ih m (by omega)
        simp [List.all_cons, hc]
        simpa using hm
    · simp [takeRun, hc] at hk
      simp [hk]

theorem takeRun_le_length (p : Char → Bool) :
    ∀ input : List Char, takeRun p input ≤ input.length := by
  intro input
  induction input with
  | nil => simp [takeRun]
  | cons c rest ih =>
    by_cases hc : p c = true
    · simp [takeRun, hc]; omega
    · simp [takeRun, hc]

theorem take_run_ne_nil {p : Char → Bool} {input : List Char} {k : Nat}
    (h1 : 1 ≤ k) (h2 : k ≤ takeRun p input) : input.take k ≠ [] := by
  have hlen := takeRun_le_length p input
  intro hnil
  have hlen0 : (input.take k).length = 0 := by rw [hnil]; rfl
  rw [List.length_take] at hlen0
  omega

theorem matchTok_mem {tok : RTok} {input : List Char}
    {pr : Option (List Char) × List Char} (h : pr ∈ matchTok tok input) :
    (∃ k, pr.2 = input.drop k) ∧
    ∀ cap, pr.1 = some cap →
      (∃ ps, tok = RTok.grp ps ∧ cap ≠ [] ∧ ∃ p ∈ ps, cap.all p = true) ∧
      ∃ k, cap = input.take k := by
  cases tok with
  | lit s =>
    by_cases hp : s.isPrefixOf input = true
    · simp [matchTok, hp] at h
      rw [h]
      exact ⟨⟨s.length, rfl⟩, by simp⟩
    · simp [matchTok, hp] at h
  | alts ss =>
    simp only [matchTok, List.mem_filterMap] at h
    obtain ⟨s, hsmem, hs⟩ := h
    split at hs
    · simp at hs
      rw [← hs]
      exact ⟨⟨s.length, rfl⟩, by simp⟩
    · simp at hs
  | star p =>
    simp [matchTok] at h
    rcases h with ⟨k, _, hk⟩ | h
    · rw [← hk]
      exact ⟨⟨k, rfl⟩, by simp⟩
    · rw [h]
      exact ⟨⟨0, by simp⟩, by simp⟩
  | plus p =>
    simp [matchTok] at h
    obtain ⟨k, _, hk⟩ := h
    rw [← hk]
    exact ⟨⟨k, rfl⟩, by simp⟩
  | optC p =>
    cases input with
    | nil =>
      simp [matchTok] at h
      rw [h]
      exact ⟨⟨0, by simp⟩, by simp⟩
    | cons c rest =>
      by_cases hc : p c = true
      · simp [matchTok, hc] at h
        rcases h with h | h
        · rw [h]; exact ⟨⟨1, rfl⟩, by simp⟩
        · rw [h]; exact ⟨⟨0, by simp⟩, by simp⟩
      · simp [matchTok, hc] at h
        rw [h]
        exact ⟨⟨0, by simp⟩, by simp⟩
  | grp ps =>
    simp [matchTok, List.mem_flatMap] at h
    obtain ⟨p, hp, k, hk, hpr⟩ := h
    have hk2 := mem_countdown hk
    refine ⟨⟨k, by rw [← hpr]⟩, ?_⟩
    intro cap hcap
    rw [← hpr] at hcap
    simp at hcap
    refine ⟨⟨ps, rfl, ?_, p, hp, ?_⟩, ⟨k, hcap.symm⟩⟩
    · rw [← hcap]
      exact take_run_ne_nil hk2.1 hk2.2
    · rw [← hcap]
      exact takeRun_all p input k hk2.2

theorem orElse_eq_some {a b : Option (List Char)} {c : List Char}
    (h : (a <|> b) = some c) : a = some c ∨ (a = none ∧ b = some c) := by
  cases a with
  | none => right; exact ⟨rfl, by simpa using h⟩
  | some x => left; simpa using h

theorem matchSeq_capture :
    ∀ (toks : List RTok) (input : List Char)
      (pr : Option (List Char) × List Char), pr ∈ matchSeq toks input →
      ∀ cap, pr.1 = some cap → CapSpec toks cap ∧ SubSeg cap input := by
  intro toks
  induction toks with
  | nil =>
    intro input pr h cap hcap
    simp [matchSeq] at h
    rw [h] at hcap
    simp at hcap
  | cons t ts ih =>
    intro input pr h cap hcap
    simp only [matchSeq, List.mem_flatMap, List.mem_map] at h
    obtain ⟨pr1, hpr1, pr2, hpr2, hpr⟩ := h
    have h1 := matchTok_mem hpr1
    rw [← hpr] at hcap
    simp at hcap
    rcases orElse_eq_some hcap with hc | ⟨_, hc⟩
    · obtain ⟨⟨ps, hps, hne, hall⟩, k, hk⟩ := h1.2 cap hc
      refine ⟨⟨ps, by rw [hps]; exact List.mem_cons_self _ _, hne, hall⟩, ?_⟩
      exact ⟨[], input.drop k, by rw [hk]; simp⟩
    · have h2 := ih pr1.2 pr2 hpr2 cap hc
      obtain ⟨k, hk⟩ := h1.1
      refine ⟨⟨h2.1.choose, List.mem_cons_of_mem _ h2.1.choose_spec.1,
        h2.1.choose_spec.2⟩, ?_⟩
      refine subSeg_of_suffix h2.2 ⟨input.take k, ?_⟩
      rw [hk]
      simp

theorem searchCap_capture :
    ∀ (toks : List RTok) (input : List Char) (cap : List Char),
      searchCap toks input = some (some cap) →
      CapSpec toks cap ∧ SubSeg cap input := by
  intro toks input
  induction input with
  | nil =>
    intro cap h
    cases hm : matchSeq toks [] with
    | nil => simp [searchCap, hm] at h
    | cons pr rest =>
      simp [searchCap, hm] at h
      exact matchSeq_capture toks [] pr (by rw [hm]; exact List.mem_cons_self _ _)
        cap h
  | cons c rest ih =>
    intro cap h
    cases hm : matchSeq toks (c :: rest) with
    | nil =>
      simp [searchCap, hm] at h
      have h2 := ih cap h
      exact ⟨h2.1, subSeg_of_suffix h2.2 ⟨[c], rfl⟩⟩
    | cons pr rest2 =>
      simp [searchCap, hm] at h
      exact matchSeq_capture toks (c :: rest) pr
        (by rw [hm]; exact List.mem_cons_self _ _) cap h

/-- A pattern with no capturing group never produces a capture. -/
theorem searchCap_no_grp {toks : List RTok} {input : List Char}
    (hng : ∀ ps, RTok.grp ps ∉ toks) {r : Option (List Char)}
    (h : searchCap toks input = some r) : r = none := by
  cases r with
  | none => rfl
  | some cap =>
    obtain ⟨⟨ps, hmem, -⟩, -⟩ := searchCap_capture toks input cap h
    exact absurd hmem (hng ps)

theorem firstSome_eq_some {α β : Type} {f : α → Option β} {b : β} :
    ∀ {l : List α}, firstSome f l = some b → ∃ a ∈ l, f a = some b := by
  intro l
  induction l with
  | nil => intro h; simp [firstSome] at h
  | cons x rest ih =>
    intro h
    cases hx : f x with
    | some y =>
      simp [firstSome, hx] at h
      exact ⟨x, by simp, by rw [hx, h]⟩
    | none =>
      simp [firstSome, hx] at h
      obtain ⟨a, ha, hfa⟩ := ih h
      exact ⟨a, by simp [ha], hfa⟩

theorem can_false_snd {now : Int} {s : Option KatyaFreeDrinks}
    (h : (can_katya_drink_free now s).1 = false) :
    (can_katya_drink_free now s).2 = s := by
  cases s with
  | none => simp [can_katya_drink_free] at h
  | some row =>
    cases hrs : row.dateReset with
    | none => simp [can_katya_drink_free, hrs]
    | some r =>
      by_cases hd : resetDue now r = true
      · simp [can_katya_drink_free, hrs, hd] at h
      · simp only [Bool.not_eq_true] at hd
        simp [can_katya_drink_free, hrs, hd]

theorem quotaUsed_le_of_inv {s : Option KatyaFreeDrinks} (h : QuotaInv s)
    (now : Int) : quotaUsedAfterReset now s ≤ QUOTA_MAX := by
  cases s with
  | none => simp [quotaUsedAfterReset, lazyReset, QUOTA_MAX]
  | some row =>
    have hle := h row rfl
    cases hrs : row.dateReset with
    | none => simpa [quotaUsedAfterReset, lazyReset, hrs] using hle
    | some r =>
      by_cases hd : resetDue now r = true
      · simp [quotaUsedAfterReset, lazyReset, hrs, hd, QUOTA_MAX]
      · simp only [Bool.not_eq_true] at hd
        simpa [quotaUsedAfterReset, lazyReset, hrs, hd] using hle

/-! ## The claims -/

/-- C3. `canConsumeFree(conversationId)` is true iff
`dailyFreeQuotaUsed < QUOTA_MAX` after lazily applying the 24-hour reset
rule, and the very first check for a conversation creates the quota record
with `used = 0` (and passes). -/
theorem c3_canConsumeFree_spec : ∀ (now : Int) (s : Option KatyaFreeDrinks),
    ((can_katya_drink_free now s).1 = true ↔
      quotaUsedAfterReset now s < QUOTA_MAX) ∧
    (s = none → can_katya_drink_free now s = (true, some ⟨0, some now⟩)) := by
  intro now s
  refine ⟨?_, ?_⟩
  · cases s with
    | none => simp [can_katya_drink_free, quotaUsedAfterReset, lazyReset, QUOTA_MAX]
    | some row =>
      cases hrs : row.dateReset with
      | none =>
        simp [can_katya_drink_free, quotaUsedAfterReset, lazyReset, hrs, QUOTA_MAX]
      | some r =>
        by_cases hd : resetDue now r = true
        · simp [can_katya_drink_free, quotaUsedAfterReset, lazyReset, hrs, hd,
            QUOTA_MAX]
        · simp only [Bool.not_eq_true] at hd
          simp [can_katya_drink_free, quotaUsedAfterReset, lazyReset, hrs, hd,
            QUOTA_MAX]
  · intro h
    subst h
    rfl

/-- C3 witness: the first-ever check creates the record with `used = 0`
and allows the drink. -/
theorem c3_witness :
    can_katya_drink_free 0 none = (true, some ⟨0, some 0⟩) ∧
    ((can_katya_drink_free 0 none).1 = true ↔
      quotaUsedAfterReset 0 none < QUOTA_MAX) :=
  ⟨(c3_canConsumeFree_spec 0 none).2 rfl, (c3_canConsumeFree_spec 0 none).1⟩

/-- C4. Under check-guarded consumption sequences the counter (after the
lazy reset) stays within `[0, QUOTA_MAX]`, and `recordConsumption` applies
the lazy reset before incrementing: when the reset is due it stores exactly
1 (reset-then-increment in one step, no double counting). -/
theorem c4_quota_invariant :
    ∀ (ops : List QOp) (s s2 : Option KatyaFreeDrinks),
      QuotaInv s → runGuarded ops s = some s2 →
      (QuotaInv s2 ∧ ∀ now, quotaUsedAfterReset now s2 ≤ QUOTA_MAX) ∧
      (∀ (now : Int) (c : Nat) (r : Int), resetDue now r = true →
        increment_katya_drinks now (some ⟨c, some r⟩) = some ⟨1, some now⟩) := by
  intro ops s s2 hinv hrun
  have h2 := runGuarded_inv ops s s2 hinv hrun
  refine ⟨⟨h2, quotaUsed_le_of_inv h2⟩, ?_⟩
  intro now c r hd
  simp [increment_katya_drinks, hd]

/-- C4 witness: a concrete guarded check-then-record run from an empty
ledger lands on a row with 1 used drink, within the quota. -/
theorem c4_witness :
    runGuarded [QOp.check 0, QOp.record 0] none = some (some ⟨1, some 0⟩) ∧
    QuotaInv (some ⟨1, some 0⟩) ∧
    quotaUsedAfterReset 0 (some ⟨1, some 0⟩) ≤ QUOTA_MAX := by
  have h1 : QuotaInv (none : Option KatyaFreeDrinks) := by
    intro row h
    cases h
  have h2 : runGuarded [QOp.check 0, QOp.record 0] none =
      some (some ⟨1, some 0⟩) := by decide
  have h3 := c4_quota_invariant [QOp.check 0, QOp.record 0] none
    (some ⟨1, some 0⟩) h1 h2
  exact ⟨h2, h3.1.1, h3.1.2 0⟩

/-- C6 counterexample: `handle_successful_payment` of
`message_handlers.py` increments the free-quota counter (2 becomes 3), so
handling a confirmed purchase does not leave `dailyFreeQuotaUsed`
unchanged. -/
theorem c6_counterexample :
    (mh_handle_successful_payment "gift_вино" ["спасибо"]
      (some ⟨2, some 0⟩)).quota = some ⟨3, some 0⟩ ∧
    (mh_handle_successful_payment "gift_вино" ["спасибо"]
      (some ⟨2, some 0⟩)).quota ≠ some ⟨2, some 0⟩ := by decide

/-- C6 amended: `app.py`'s `successful_payment` leaves the free-quota
ledger unchanged, but `message_handlers.handle_successful_payment` runs
`update_katya_free_drinks(chat_id, 1)`, adding 1 to `drinks_count` whenever
a quota row exists — the purchase path there does modify the ledger. -/
theorem c6_amended_frame :
    ∀ (payload : String) (grat : List String) (q : Option KatyaFreeDrinks),
      (app_successful_payment payload q).quota = q ∧
      (mh_handle_successful_payment payload grat q).quota =
        update_katya_free_drinks 1 q ∧
      (∀ (c : Nat) (r : Option Int), q = some ⟨c, r⟩ →
        (mh_handle_successful_payment payload grat q).quota =
          some ⟨c + 1, r⟩) := by
  intro payload grat q
  refine ⟨rfl, rfl, ?_⟩
  intro c r h
  subst h
  rfl

/-- C6 witness: at a concrete confirmed wine purchase the `app.py` handler
keeps the counter at 2 while the `message_handlers.py` handler moves it
to 3. -/
theorem c6_witness :
    (app_successful_payment "wine" (some ⟨2, some 0⟩)).quota =
      some ⟨2, some 0⟩ ∧
    (mh_handle_successful_payment "gift_вино" ["спасибо"]
      (some ⟨2, some 0⟩)).quota = some ⟨3, some 0⟩ := by
  have h1 := (c6_amended_frame "wine" ["спасибо"] (some ⟨2, some 0⟩)).1
  have h2 := (c6_amended_frame "gift_вино" ["спасибо"]
    (some ⟨2, some 0⟩)).2.2 2 (some 0) rfl
  exact ⟨h1, by simpa using h2⟩

/-- C2 counterexample: replaying the same confirmed-payment event (same
charge id, same payload) through `message_handlers.handle_successful_payment`
sends the 5-message thank-you sequence twice (10 messages, not 5) and
bumps the drinks counter twice; no GiftTransaction or charge-id record
exists anywhere to deduplicate on. -/
theorem c2_counterexample :
    (mhPaymentTwice "gift_вино"
      (generate_gender_appropriate_gratitude_fallback "друг" "напиток" "")
      (some ⟨0, some 0⟩)).sent.length = 10 ∧
    (generate_gender_appropriate_gratitude_fallback "друг" "напиток"
      "").length = 5 ∧
    (mhPaymentTwice "gift_вино"
      (generate_gender_appropriate_gratitude_fallback "друг" "напиток" "")
      (some ⟨0, some 0⟩)).quota = some ⟨2, some 0⟩ := by decide

/-- C2 amended: neither payment handler is idempotent — there is no
charge-id bookkeeping and no GiftTransaction record, so processing the same
confirmed-payment event twice emits the thank-you sequence twice (and the
`message_handlers` draft applies the +1 ledger update twice). -/
theorem c2_amended_replay :
    ∀ (payload : String) (grat : List String) (q : Option KatyaFreeDrinks),
      (mhPaymentTwice payload grat q).sent = grat ++ grat ∧
      (mhPaymentTwice payload grat q).quota =
        update_katya_free_drinks 1 (update_katya_free_drinks 1 q) ∧
      (appPaymentTwice payload q).sent.length =
        2 * (app_successful_payment payload q).sent.length ∧
      (appPaymentTwice payload q).quota = q := by
  intro payload grat q
  refine ⟨rfl, rfl, ?_, rfl⟩
  simp [appPaymentTwice, app_successful_payment, Nat.two_mul]

theorem fireQuick_of_sent {now : Int} {u : UserSched}
    (h : u.quickSent = true) : fireQuick now u = (0, u) := by
  simp [fireQuick, quickEligible, h]

theorem runQuickFires_of_sent {u : UserSched} (h : u.quickSent = true) :
    ∀ ts : List Int, runQuickFires ts u = (0, u)
  | [] => by simp [runQuickFires]
  | t :: ts => by
      simp [runQuickFires, fireQuick_of_sent h, runQuickFires_of_sent h ts]

theorem fireQuick_sent_state {now : Int} {u : UserSched}
    (h : (fireQuick now u).1 = 1) : (fireQuick now u).2.quickSent = true := by
  by_cases he : quickEligible now u = true
  · simp [fireQuick, he, update_last_quick_message]
  · simp [fireQuick, he] at h

theorem runQuickFires_le_one :
    ∀ (ts : List Int) (u : UserSched), (runQuickFires ts u).1 ≤ 1
  | [], u => by simp [runQuickFires]
  | t :: ts, u => by
      by_cases he : quickEligible t u = true
      · have hstate : (update_last_quick_message t u).quickSent = true := rfl
        simp [runQuickFires, fireQuick, he, runQuickFires_of_sent hstate ts]
      · simp only [runQuickFires, fireQuick, he, if_false]
        simpa using runQuickFires_le_one ts u

/-- C7. The quick re-engagement prompt fires at most once per idle period:
any run of quick-timer ticks with no intervening inbound message sends at
most one prompt (also right after an inbound message), a new inbound
message makes exactly one further prompt possible (some tick time sends,
stamping `lastQuickPromptAt` and the sent flag), and once a tick has sent,
the immediately following tick sends nothing. -/
theorem c7_quick_prompt_once : ∀ (u : UserSched) (ts : List Int),
    (runQuickFires ts u).1 ≤ 1 ∧
    (∀ (t : Int) (ts2 : List Int),
      (runQuickFires ts2 (inboundMark t u)).1 ≤ 1) ∧
    (∀ t : Int, ∃ now : Int,
      (fireQuick now (inboundMark t u)).1 = 1 ∧
      (fireQuick now (inboundMark t u)).2.lastQuickAt = some now ∧
      (fireQuick now (inboundMark t u)).2.quickSent = true) ∧
    (∀ now now2 : Int, (fireQuick now u).1 = 1 →
      (fireQuick now2 (fireQuick now u).2).1 = 0) := by
  intro u ts
  refine ⟨runQuickFires_le_one ts u, fun t ts2 => runQuickFires_le_one ts2 _,
    ?_, ?_⟩
  · intro t
    cases ha : u.lastAutoAt with
    | none =>
      refine ⟨t + 901, ?_⟩
      have he : quickEligible (t + 901) (inboundMark t u) = true := by
        simp [quickEligible, inboundMark, ha]
        omega
      simp [fireQuick, he, update_last_quick_message]
    | some a =>
      refine ⟨max t a + 3601, ?_⟩
      have h1 : t ≤ max t a := le_max_left t a
      have h2 : a ≤ max t a := le_max_right t a
      have he : quickEligible (max t a + 3601) (inboundMark t u) = true := by
        simp [quickEligible, inboundMark, ha]
        constructor <;> omega
      simp [fireQuick, he, update_last_quick_message]
  · intro now now2 h
    rw [fireQuick_of_sent (fireQuick_sent_state h)]

/-- C8 counterexample: with the language-model call failing for every
selected idle user, the quick scheduler still sends one message per user —
the same static fallback string (up to the name) — rather than skipping
them silently. -/
theorem c8_counterexample :
    send_quick_messages [⟨1, "Вася", none⟩, ⟨2, "Петя", none⟩] =
      [(1, "Привет, Вася! Как дела? 😉"), (2, "Привет, Петя! Как дела? 😉")] ∧
    (send_quick_messages [⟨1, "Вася", none⟩, ⟨2, "Петя", none⟩]).length ≠ 0 := by
  decide

/-- C8 amended: on model failure `generate_quick_message_llm` (and the
daily `generate_auto_message_llm`) return a fixed fallback string, and
`send_quick_messages` sends exactly one message — that fallback — to every
selected user; no user is skipped. -/
theorem c8_amended_fallback : ∀ users : List QUser,
    (∀ u ∈ users, u.llmAnswer = none) →
    send_quick_messages users = users.map
      (fun u => (u.chatId, "Привет, " ++ u.firstName ++ "! Как дела? 😉")) ∧
    (send_quick_messages users).length = users.length ∧
    (∀ name : String, generate_quick_message_llm name none =
      "Привет, " ++ name ++ "! Как дела? 😉") ∧
    (∀ name : String, generate_auto_message_llm name none =
      "Привет, " ++ name ++ "! Соскучился? 😉") := by
  intro users h
  refine ⟨?_, by simp [send_quick_messages], fun _ => rfl, fun _ => rfl⟩
  induction users with
  | nil => rfl
  | cons u rest ih =>
    have hu : u.llmAnswer = none := h u (by simp)
    have htail := ih (fun v hv => h v (by simp [hv]))
    simpa [send_quick_messages, generate_quick_message_llm, hu]
      using htail

/-- C8 witness: one selected user with a failing model call receives
exactly the static fallback. -/
theorem c8_witness :
    send_quick_messages [⟨1, "Вася", none⟩] =
      [(1, "Привет, Вася! Как дела? 😉")] := by
  have h := c8_amended_fallback [⟨1, "Вася", none⟩]
    (by intro u hu; simp at hu; rw [hu])
  simpa using h.1

theorem tryAgePattern_bounds {tl : List Char} {p : List RTok} {a : Nat}
    (h : tryAgePattern tl p = some a) : 1 ≤ a ∧ a ≤ 120 := by
  unfold tryAgePattern at h
  cases hs : searchCap p tl with
  | none => rw [hs] at h; cases h
  | some oc =>
    rw [hs] at h
    cases oc with
    | none => cases h
    | some cap =>
      simp only at h
      split at h
      · next hcond =>
        simp only [Option.some.injEq] at h
        rw [← h]
        exact hcond
      · cases h

theorem mh_parse_age_bounds {t : String} {a : Nat}
    (h : mh_parse_age_from_text t = some a) : 1 ≤ a ∧ a ≤ 120 := by
  unfold mh_parse_age_from_text at h
  cases hf : findAgeToken none t.data with
  | none => rw [hf] at h; cases h
  | some tok =>
    rw [hf] at h
    simp only at h
    split at h
    · next hcond =>
      simp only [Option.some.injEq] at h
      rw [← h]
      omega
    · cases h

theorem handle_user_message_extracts (ctx : MsgCtx)
    (h : containsAny statsKeywords (lowerL ctx.textIn) = false) :
    (handle_user_message ctx).ageUpdate = mh_parse_age_from_text ctx.textIn ∧
    (handle_user_message ctx).prefUpdate =
      mh_parse_drink_preferences ctx.textIn := by
  unfold handle_user_message
  simp only [h, Bool.false_eq_true, if_false]
  split
  · exact ⟨rfl, rfl⟩
  · split
    · split
      · exact ⟨rfl, rfl⟩
      · exact ⟨rfl, rfl⟩
    · exact ⟨rfl, rfl⟩

theorem msg_handler_extracts (actx : AppCtx)
    (h : containsAny statsKeywords (lowerL actx.textIn) = false) :
    (msg_handler actx).ageUpdate = app_parse_age_from_text actx.textIn ∧
    (msg_handler actx).prefUpdate = app_parse_drink_preferences actx.textIn ∧
    (msg_handler actx).drinkRecord = app_parse_drink_info actx.textIn ∧
    ((msg_handler actx).drinkCountAdd = app_parse_drink_amount actx.textIn ∨
      (msg_handler actx).drinkCountAdd = none) := by
  unfold msg_handler
  simp only [h, Bool.false_eq_true, if_false]
  split
  · exact ⟨rfl, rfl, rfl, Or.inr rfl⟩
  · split
    · exact ⟨rfl, rfl, rfl, Or.inr rfl⟩
    · split
      · split
        · exact ⟨rfl, rfl, rfl, Or.inl rfl⟩
        · exact ⟨rfl, rfl, rfl, Or.inl rfl⟩
      · exact ⟨rfl, rfl, rfl, Or.inl rfl⟩

/-- C9. Age extraction always yields an integer in `[1, 120]` or nothing,
in both drafts; on the message `"мне 25 лет"` the handlers set the age hint
to 25 and make no other text-derived profile update (no preference update;
in `app.py` also no drink record and no drink-count update). -/
theorem c9_age_extraction :
    (∀ (t : String) (a : Nat),
      app_parse_age_from_text t = some a → 1 ≤ a ∧ a ≤ 120) ∧
    (∀ (t : String) (a : Nat),
      mh_parse_age_from_text t = some a → 1 ≤ a ∧ a ≤ 120) ∧
    (∀ (st ans : String) (rd : Bool) (now : Int) (q : Option KatyaFreeDrinks),
      (handle_user_message ⟨"мне 25 лет", st, rd, ans, now, q⟩).ageUpdate =
        some 25 ∧
      (handle_user_message ⟨"мне 25 лет", st, rd, ans, now, q⟩).prefUpdate =
        none) ∧
    (∀ (st w ans : String) (ol rd : Bool) (now : Int)
      (q : Option KatyaFreeDrinks),
      (msg_handler ⟨"мне 25 лет", st, ol, w, rd, ans, now, q⟩).ageUpdate =
        some 25 ∧
      (msg_handler ⟨"мне 25 лет", st, ol, w, rd, ans, now, q⟩).prefUpdate =
        none ∧
      (msg_handler ⟨"мне 25 лет", st, ol, w, rd, ans, now, q⟩).drinkRecord =
        none ∧
      (msg_handler ⟨"мне 25 лет", st, ol, w, rd, ans, now, q⟩).drinkCountAdd =
        none) := by
  refine ⟨?_, ?_, ?_, ?_⟩
  · intro t a h
    unfold app_parse_age_from_text at h
    obtain ⟨p, hp, ht⟩ := firstSome_eq_some h
    exact tryAgePattern_bounds ht
  · intro t a h
    exact mh_parse_age_bounds h
  · intro st ans rd now q
    have hstats : containsAny statsKeywords (lowerL "мне 25 лет") = false := by
      decide
    have hage : mh_parse_age_from_text "мне 25 лет" = some 25 := by decide
    have hpref : mh_parse_drink_preferences "мне 25 лет" = none := by decide
    have he := handle_user_message_extracts ⟨"мне 25 лет", st, rd, ans, now, q⟩
      hstats
    exact ⟨he.1.trans hage, he.2.trans hpref⟩
  · intro st w ans ol rd now q
    have hstats : containsAny statsKeywords (lowerL "мне 25 лет") = false := by
      decide
    have hage : app_parse_age_from_text "мне 25 лет" = some 25 := by decide
    have hpref : app_parse_drink_preferences "мне 25 лет" = none := by decide
    have hdrink : app_parse_drink_info "мне 25 лет" = none := by decide
    have hamount : app_parse_drink_amount "мне 25 лет" = none := by decide
    have he := msg_handler_extracts ⟨"мне 25 лет", st, ol, w, rd, ans, now, q⟩
      hstats
    refine ⟨he.1.trans hage, he.2.1.trans hpref, he.2.2.1.trans hdrink, ?_⟩
    rcases he.2.2.2 with hd | hd
    · exact hd.trans hamount
    · exact hd

/-- C9 witness: the scenario input. -/
theorem c9_witness :
    app_parse_age_from_text "мне 25 лет" = some 25 ∧ (1 ≤ 25 ∧ 25 ≤ 120) ∧
    (handle_user_message ⟨"мне 25 лет", "", false, "", 0, none⟩).ageUpdate =
      some 25 ∧
    (msg_handler ⟨"мне 25 лет", "", false, "", false, "", 0, none⟩).ageUpdate =
      some 25 := by
  have h1 : app_parse_age_from_text "мне 25 лет" = some 25 := by decide
  exact ⟨h1, c9_age_extraction.1 "мне 25 лет" 25 h1,
    (c9_age_extraction.2.2.1 "" "" false 0 none).1,
    (c9_age_extraction.2.2.2 "" "" "" false false 0 none).1⟩

theorem runApp_range :
    ∀ (pats : List AppDrinkPat) (tl : List Char) (r : DrinkInfo),
      runAppDrinkPats pats tl = some r → 1 ≤ r.amount ∧ r.amount ≤ 50
  | [], tl, r => by
      intro h
      cases h
  | pe :: rest, tl, r => by
      intro h
      unfold runAppDrinkPats at h
      split at h
      · exact runApp_range rest tl r h
      · split at h
        · split at h
          · exact runApp_range rest tl r h
          · split at h
            · next hcond =>
              simp only [Option.some.injEq] at h
              rw [← h]
              exact hcond
            · exact runApp_range rest tl r h
        · simp only [Option.some.injEq] at h
          rw [← h]
          exact ⟨Nat.le_refl 1, by simp⟩

theorem runApp_amount_one :
    ∀ (pats : List AppDrinkPat) (tl : List Char),
      tl.all (fun c => !(isDigitC c)) = true →
      (∀ w ∈ word_to_number, containsSub w.1.data tl = false) →
      (∃ pe ∈ pats, GrpFree pe.toks ∧ searchCap pe.toks tl ≠ none) →
      ∃ r, runAppDrinkPats pats tl = some r ∧ r.amount = 1
  | [], tl, h1, h2, h3 => by simp at h3
  | pe :: rest, tl, h1, h2, h3 => by
      obtain ⟨pw, hmem, hgf, hne⟩ := h3
      cases hs : searchCap pe.toks tl with
      | none =>
        have hmem2 : pw ∈ rest := by
          rcases List.mem_cons.mp hmem with rfl | hm
          · exact absurd hs hne
          · exact hm
        have hrec := runApp_amount_one rest tl h1 h2 ⟨pw, hmem2, hgf, hne⟩
        simpa [runAppDrinkPats, hs] using hrec
      | some capOpt =>
        cases capOpt with
        | none =>
          exact ⟨⟨pe.dtype, 1, pe.dunit⟩, by simp [runAppDrinkPats, hs], rfl⟩
        | some cap =>
          obtain ⟨⟨ps, hpsmem, hne0, p, hp, hall⟩, hsub⟩ :=
            searchCap_capture pe.toks tl cap hs
          have hnotdig : ¬(cap ≠ [] ∧ cap.all isDigitC = true) := by
            rintro ⟨-, hdig⟩
            obtain ⟨c0, hc0⟩ := List.exists_mem_of_ne_nil cap hne0
            have hd0 : isDigitC c0 = true := List.all_eq_true.mp hdig c0 hc0
            obtain ⟨a, b, htl⟩ := hsub
            have hmem0 : c0 ∈ tl := by
              rw [htl]
              simp [hc0]
            have hnd := List.all_eq_true.mp h1 c0 hmem0
            simp [hd0] at hnd
          have hpy : pyAmount cap = none := by
            unfold pyAmount
            rw [if_neg hnotdig]
            unfold lookupWordNumber
            cases hf : word_to_number.find? (fun pr => pr.1.data == cap) with
            | none => simp
            | some pr =>
              exfalso
              have hmemw : pr ∈ word_to_number := List.mem_of_find?_eq_some hf
              have heq : pr.1.data = cap := by
                have := List.find?_some hf
                simpa using this
              have hcs : containsSub pr.1.data tl = true := by
                rw [heq]
                exact containsSub_of_subSeg hsub
              rw [h2 pr hmemw] at hcs
              cases hcs
          have hmem2 : pw ∈ rest := by
            rcases List.mem_cons.mp hmem with rfl | hm
            · exact absurd hpsmem (hgf ps)
            · exact hm
          obtain ⟨r, hr, ha⟩ :=
            runApp_amount_one rest tl h1 h2 ⟨pw, hmem2, hgf, hne⟩
          refine ⟨r, ?_, ha⟩
          simpa [runAppDrinkPats, hs, hpy] using hr

/-- C10. Every record `app.py`'s `parse_drink_info` returns has its amount
in `[1, 50]`, and a text that matches one of the numeral-free consumption
patterns (such as `"выпил стакан пива"`) while containing neither a digit
nor a numeral word is parsed with amount exactly 1. -/
theorem c10_consumption_amount :
    (∀ (t : String) (r : DrinkInfo),
      app_parse_drink_info t = some r → 1 ≤ r.amount ∧ r.amount ≤ 50) ∧
    (∀ t : String,
      (lowerL t).all (fun c => !(isDigitC c)) = true →
      (∀ w ∈ word_to_number, containsSub w.1.data (lowerL t) = false) →
      (∃ pe ∈ appDrinkPats, GrpFree pe.toks ∧
        searchCap pe.toks (lowerL t) ≠ none) →
      ∃ r, app_parse_drink_info t = some r ∧ r.amount = 1) := by
  constructor
  · intro t r h
    exact runApp_range appDrinkPats (lowerL t) r h
  · intro t h1 h2 h3
    exact runApp_amount_one appDrinkPats (lowerL t) h1 h2 h3

/-- C10 witness: `"выпил стакан пива"` has no numeral and matches the
group-free beer pattern, so it parses with amount 1. -/
theorem c10_witness :
    ∃ r, app_parse_drink_info "выпил стакан пива" = some r ∧
      r.amount = 1 := by
  apply c10_consumption_amount.2
  · decide
  · decide
  · refine ⟨⟨[.lit ("выпил".data), .plus isSpaceC,
      altsOf ["стакан", "бокал", "банк", "бутылк", "л", "мл"],
      .star isSpaceC, altsOf ["пива", "пивка", "барнаульского"]],
      "пиво", "стакан"⟩, ?_, ?_, ?_⟩
    · unfold appDrinkPats appBeerPats appPatsFor
      simp only [List.cons_append, List.nil_append]
      exact List.mem_cons_of_mem _ (List.mem_cons_of_mem _
        (List.mem_cons_self _ _))
    · intro ps hmem
      simp [altsOf] at hmem
    · decide

/-- C5. When the reply derives a sticker command but
`can_katya_drink_free` is false, both handlers dispatch no sticker and emit
the gift request instead — `handle_user_message` sends the fixed
four-item catalog with its prices, `msg_handler` sends one
buy-a-gift message — and the quota state is left untouched. -/
theorem c5_quota_exhausted_gift (ctx : MsgCtx) (actx : AppCtx)
    (cmd cmd2 : String)
    (h1 : containsAny statsKeywords (lowerL ctx.textIn) = false)
    (h2 : ctx.remindDue = false)
    (h3 : stickerFromAnswerMH ctx.llmAnswer = some cmd)
    (h4 : (can_katya_drink_free ctx.now ctx.quota).1 = false)
    (h5 : containsAny statsKeywords (lowerL actx.textIn) = false)
    (h6 : ((app_parse_drink_info actx.textIn).isSome && actx.overLimit) =
      false)
    (h7 : actx.remindDue = false)
    (h8 : stickerFromAnswerApp actx.llmAnswer = some cmd2)
    (h9 : (can_katya_drink_free actx.now actx.quota).1 = false) :
    (handle_user_message ctx).stickers = [] ∧
    (handle_user_message ctx).giftOffers = [giftCatalog] ∧
    (handle_user_message ctx).quota = ctx.quota ∧
    (handle_user_message ctx).replies = [ctx.llmAnswer] ∧
    (msg_handler actx).stickers = [] ∧
    (msg_handler actx).giftRequests = 1 ∧
    (msg_handler actx).quota = actx.quota := by
  have hq1 := can_false_snd h4
  have hq2 := can_false_snd h9
  refine ⟨?_, ?_, ?_, ?_, ?_, ?_, ?_⟩ <;>
    simp [handle_user_message, msg_handler, h1, h2, h3, h4, h5, h6, h7, h8,
      h9, hq1, hq2]

/-- C5 witness: quota exhausted (5 of 5 used today), the reply calls for a
drink sticker, and the gift offer is emitted instead. -/
theorem c5_witness :
    (handle_user_message ⟨"привет", "s", false, "наливай, выпьем!", 0,
      some ⟨5, some 0⟩⟩).stickers = [] ∧
    (handle_user_message ⟨"привет", "s", false, "наливай, выпьем!", 0,
      some ⟨5, some 0⟩⟩).giftOffers = [giftCatalog] ∧
    (handle_user_message ⟨"привет", "s", false, "наливай, выпьем!", 0,
      some ⟨5, some 0⟩⟩).quota = some ⟨5, some 0⟩ ∧
    (handle_user_message ⟨"привет", "s", false, "наливай, выпьем!", 0,
      some ⟨5, some 0⟩⟩).replies = ["наливай, выпьем!"] ∧
    (msg_handler ⟨"привет", "s", false, "w", false, "скорее бы водка", 0,
      some ⟨5, some 0⟩⟩).stickers = [] ∧
    (msg_handler ⟨"привет", "s", false, "w", false, "скорее бы водка", 0,
      some ⟨5, some 0⟩⟩).giftRequests = 1 ∧
    (msg_handler ⟨"привет", "s", false, "w", false, "скорее бы водка", 0,
      some ⟨5, some 0⟩⟩).quota = some ⟨5, some 0⟩ :=
  c5_quota_exhausted_gift
    ⟨"привет", "s", false, "наливай, выпьем!", 0, some ⟨5, some 0⟩⟩
    ⟨"привет", "s", false, "w", false, "скорее бы водка", 0, some ⟨5, some 0⟩⟩
    "[SEND_DRINK_BEER]" "[SEND_DRINK_VODKA]"
    (by decide) rfl (by decide) (by decide)
    (by decide) (by decide) rfl (by decide) (by decide)

/-- C1 counterexample: `app.py`'s registered `msg_handler` never appends a
user-role turn — on a plain inbound message it logs one assistant turn and
zero user turns, not "exactly one user-turn append". -/
theorem c1_counterexample :
    countRole "user" (msg_handler ⟨"привет", "stats", false, "warn", false,
      "ответ", 0, none⟩).log = 0 ∧
    countRole "user" (msg_handler ⟨"привет", "stats", false, "warn", false,
      "ответ", 0, none⟩).log ≠ 1 ∧
    countRole "assistant" (msg_handler ⟨"привет", "stats", false, "warn",
      false, "ответ", 0, none⟩).log = 1 ∧
    (msg_handler ⟨"привет", "stats", false, "warn", false, "ответ", 0,
      none⟩).replies.length = 1 := by decide

/-- C1 amended: every processed inbound text message yields exactly one
outbound text reply, at most one side dispatch (sticker or gift request)
and exactly one agent-role log append, in both drafts; the user-role turn
is appended exactly once by `message_handlers.handle_user_message` but
never by `app.py`'s registered `msg_handler`. -/
theorem c1_exactly_once_amended : ∀ (ctx : MsgCtx) (actx : AppCtx),
    ((handle_user_message ctx).replies.length = 1 ∧
     (handle_user_message ctx).stickers.length +
       (handle_user_message ctx).giftOffers.length ≤ 1 ∧
     countRole "user" (handle_user_message ctx).log = 1 ∧
     countRole "assistant" (handle_user_message ctx).log = 1) ∧
    ((msg_handler actx).replies.length = 1 ∧
     (msg_handler actx).stickers.length + (msg_handler actx).giftRequests ≤ 1 ∧
     countRole "user" (msg_handler actx).log = 0 ∧
     countRole "assistant" (msg_handler actx).log = 1) := by
  intro ctx actx
  constructor
  · by_cases h1 : containsAny statsKeywords (lowerL ctx.textIn) = true
    · simp [handle_user_message, h1, countRole]
    · by_cases h2 : ctx.remindDue = true
      · simp [handle_user_message, h1, h2, countRole]
      · cases h3 : stickerFromAnswerMH ctx.llmAnswer with
        | some cmd =>
          by_cases h4 : (can_katya_drink_free ctx.now ctx.quota).1 = true
          · simp [handle_user_message, h1, h2, h3, h4, countRole]
          · simp [handle_user_message, h1, h2, h3, h4, countRole]
        | none => simp [handle_user_message, h1, h2, h3, countRole]
  · by_cases h1 : containsAny statsKeywords (lowerL actx.textIn) = true
    · simp [msg_handler, h1, countRole]
    · by_cases h2 : ((app_parse_drink_info actx.textIn).isSome &&
        actx.overLimit) = true
      · simp [msg_handler, h1, h2, countRole]
      · by_cases h3 : actx.remindDue = true
        · simp [msg_handler, h1, h2, h3, countRole]
        · cases h4 : stickerFromAnswerApp actx.llmAnswer with
          | some cmd =>
            by_cases h5 : (can_katya_drink_free actx.now actx.quota).1 = true
            · simp [msg_handler, h1, h2, h3, h4, h5, countRole]
            · simp [msg_handler, h1, h2, h3, h4, h5, countRole]
          | none => simp [msg_handler, h1, h2, h3, h4, countRole]

end DBot
